import Mathlib

/-!
Verification of the spatiotemporal denoiser of the hybrid renderer
(`RayTracedReflections` in `src/bilateral_blur.cpp`, frame loop in
`src/main.cpp`).

The host-side pass-recording code is embedded shallowly: each `render`
call is modelled as a pure function from the mutable state it reads
(`m_first_frame`, `m_a_trous.read_idx`, the configuration members and
`m_common_resources->ping_pong`) to the updated state together with the
list of GPU commands it records into the command buffer.  The recorded
commands carry exactly the information the claims are about: which image
each dispatch reads and writes, the buffer memory barriers with their
access masks, and the integer push constants (`step_size`, `sample_gi`,
`approximate_with_ddgi`).  Floating-point push constants (alpha, phi,
sigma) are omitted from the command model: no claim mentions them.

A second layer interprets a recorded command list over a store mapping
each image to its contents (a function from integer pixel coordinates to
rationals), with the shader kernels — which live in `shaders/` and are
not part of the extracted sources — modelled from the spec.
-/

/-- The images owned by one `RayTracedReflections` instance
(`create_images` in `src/bilateral_blur.cpp`).  The temporal-accumulation
output/moments arrays are indexed by the boolean `ping_pong` parity, the
A-Trous ping-pong pair by the integer read/write index of
`a_trous_filter`. -/
inductive ImageId : Type
  | rayTraceImg : ImageId
  | taOutput (slot : Bool) : ImageId
  | taMoments (slot : Bool) : ImageId
  | prevImg : ImageId
  | aTrousImg (slot : Nat) : ImageId
  | upsampleImg : ImageId
deriving DecidableEq, Repr

/-- The tile-list and indirect-dispatch-argument buffers of the
temporal-accumulation stage (`create_buffers`). -/
inductive BufferId : Type
  | denoiseTileCoords : BufferId
  | denoiseDispatchArgs : BufferId
  | copyTileCoords : BufferId
  | copyDispatchArgs : BufferId
deriving DecidableEq, Repr

/-- Vulkan access-mask bits that appear in the barriers recorded by the
denoiser passes. -/
inductive Access : Type
  | shaderRead : Access
  | shaderWrite : Access
  | indirectCommandRead : Access
deriving DecidableEq, Repr

/-- One `VkBufferMemoryBarrier` as recorded by `buffer_memory_barrier`:
the buffer plus its source and destination access masks (a mask is a set
of bits, kept as a list). -/
structure BufBarrier : Type where
  buf : BufferId
  srcAccess : List Access
  dstAccess : List Access
deriving DecidableEq, Repr

/-- Integer push constants of `ray_trace` that the claims mention
(`RayTracePushConstants`); `1`/`0` mirror the C `? 1 : 0`. -/
structure RayTracePC : Type where
  sampleGi : Nat
  approximateWithDdgi : Nat
deriving DecidableEq, Repr

/-- Integer push constant of `temporal_accumulation` that the claims
mention (`TemporalAccumulationPushConstants`). -/
structure TemporalAccumulationPC : Type where
  approximateWithDdgi : Nat
deriving DecidableEq, Repr

/-- Integer push constants of the A-Trous filter dispatch
(`ATrousFilterPushConstants`). -/
structure ATrousPC : Type where
  radius : Nat
  stepSize : Nat
  approximateWithDdgi : Nat
deriving DecidableEq, Repr

/-- One command recorded into the frame's command buffer by the
denoiser.  `imageBarrier` stands for a `set_image_layout` call,
`pipelineBarrier` for a `pipeline_barrier` call (only its buffer
barriers are kept; the claims do not mention its memory/image
barriers).  Dispatches record the image each descriptor-set binding
points at. -/
inductive Cmd : Type
  | imageBarrier (img : ImageId) : Cmd
  | pipelineBarrier (bufs : List BufBarrier) : Cmd
  | clearColor (img : ImageId) : Cmd
  | rayTraceDispatch (pc : RayTracePC) : Cmd
  | resetArgsDispatch : Cmd
  | taDispatch (writeSlot : Bool) (historySrc : ImageId) (pc : TemporalAccumulationPC) : Cmd
  | copyTilesDispatchIndirect (argsBuf : BufferId) (src dst : ImageId) : Cmd
  | aTrousDispatchIndirect (argsBuf : BufferId) (src dst : ImageId) (pc : ATrousPC) : Cmd
  | copyImage (src dst : ImageId) : Cmd
  | upsampleDispatch (src dst : ImageId) : Cmd
deriving DecidableEq, Repr

/-- `RayTraceScale`: resolution scale the instance was constructed at. -/
inductive RayTraceScale : Type
  | fullRes : RayTraceScale
  | halfRes : RayTraceScale
  | quarterRes : RayTraceScale
deriving DecidableEq, Repr

/-- `RayTracedReflections::OutputType` (debug output selection). -/
inductive OutputType : Type
  | outputRayTrace : OutputType
  | outputTemporalAccumulation : OutputType
  | outputATrous : OutputType
  | outputUpsample : OutputType
deriving DecidableEq, Repr

/-- The configuration members of a `RayTracedReflections` instance that
the recorded passes read (set in the constructor or mutated through the
GUI; constant during one `render` call). -/
structure Config : Type where
  denoise : Bool
  currentOutput : OutputType
  scale : RayTraceScale
  sampleGi : Bool
  approximateWithDdgi : Bool
  blurAsInput : Bool
  filterIterations : Nat
  feedbackIteration : Int
  radius : Nat
deriving DecidableEq, Repr

/-- The per-instance mutable state that `render` itself updates:
`m_first_frame` and `m_a_trous.read_idx`. -/
structure RState : Type where
  firstFrame : Bool
  aTrousReadIdx : Nat
deriving DecidableEq, Repr

/-- The members of `CommonResources` the denoiser reads, and the frame
loop of `main.cpp` updates: the global ping-pong parity, the global
first-frame flag and the frame counter. -/
structure Common : Type where
  pingPong : Bool
  firstFrame : Bool
  numFrames : Nat
deriving DecidableEq, Repr

/-- `RayTracedReflections::clear_images`: on the instance's first frame,
transition the three history images to `GENERAL`, clear them to zero,
transition them to read-only, and drop the `m_first_frame` flag; on
every later frame record nothing. -/
def clear_images (c : Common) (s : RState) : RState × List Cmd :=
  if s.firstFrame then
    ({ s with firstFrame := false },
      [Cmd.imageBarrier ImageId.prevImg,
       Cmd.imageBarrier (ImageId.taOutput (!c.pingPong)),
       Cmd.imageBarrier (ImageId.taMoments (!c.pingPong)),
       Cmd.clearColor ImageId.prevImg,
       Cmd.clearColor (ImageId.taOutput (!c.pingPong)),
       Cmd.clearColor (ImageId.taMoments (!c.pingPong)),
       Cmd.imageBarrier ImageId.prevImg,
       Cmd.imageBarrier (ImageId.taOutput (!c.pingPong)),
       Cmd.imageBarrier (ImageId.taMoments (!c.pingPong))])
  else (s, [])

/-- `RayTracedReflections::ray_trace`: barrier, trace rays with the
push-constant flags gated by `&& !m_first_frame`, transition the output
image.  `s` is the instance state at the time the pass is recorded. -/
def ray_trace (cfg : Config) (s : RState) : List Cmd :=
  [Cmd.pipelineBarrier [],
   Cmd.rayTraceDispatch
     { sampleGi := if cfg.sampleGi && !s.firstFrame then 1 else 0,
       approximateWithDdgi := if cfg.approximateWithDdgi && !s.firstFrame then 1 else 0 },
   Cmd.imageBarrier ImageId.rayTraceImg]

/-- `RayTracedReflections::reset_args`: barrier the four tile/argument
buffers from read back to shader write, then dispatch the args reset. -/
def reset_args : List Cmd :=
  [Cmd.pipelineBarrier
     [{ buf := BufferId.denoiseTileCoords,
        srcAccess := [Access.shaderRead], dstAccess := [Access.shaderWrite] },
      { buf := BufferId.denoiseDispatchArgs,
        srcAccess := [Access.shaderRead, Access.indirectCommandRead],
        dstAccess := [Access.shaderWrite] },
      { buf := BufferId.copyTileCoords,
        srcAccess := [Access.shaderRead], dstAccess := [Access.shaderWrite] },
      { buf := BufferId.copyDispatchArgs,
        srcAccess := [Access.shaderRead, Access.indirectCommandRead],
        dstAccess := [Access.shaderWrite] }],
   Cmd.resetArgsDispatch]

/-- The buffer barriers recorded after the temporal-accumulation
dispatch: tile-coordinate buffers become shader-readable, the
indirect-argument buffers become readable by indirect dispatch. -/
def taPostBarriers : List BufBarrier :=
  [{ buf := BufferId.denoiseTileCoords,
     srcAccess := [Access.shaderWrite], dstAccess := [Access.shaderRead] },
   { buf := BufferId.denoiseDispatchArgs,
     srcAccess := [Access.shaderWrite], dstAccess := [Access.indirectCommandRead] },
   { buf := BufferId.copyTileCoords,
     srcAccess := [Access.shaderWrite], dstAccess := [Access.shaderRead] },
   { buf := BufferId.copyDispatchArgs,
     srcAccess := [Access.shaderWrite], dstAccess := [Access.indirectCommandRead] }]

/-- `RayTracedReflections::temporal_accumulation`: barrier, one full
dispatch writing the `ping_pong` output/moments slot, reading history
color from the pre-blurred `prev_image` when `blur_as_input` is set and
from output slot `!ping_pong` otherwise, then the write→read /
write→indirect-read barriers. -/
def temporal_accumulation (cfg : Config) (c : Common) (s : RState) : List Cmd :=
  [Cmd.pipelineBarrier
     [{ buf := BufferId.denoiseTileCoords,
        srcAccess := [Access.shaderWrite], dstAccess := [Access.shaderWrite] },
      { buf := BufferId.denoiseDispatchArgs,
        srcAccess := [Access.shaderWrite], dstAccess := [Access.shaderWrite] },
      { buf := BufferId.copyTileCoords,
        srcAccess := [Access.shaderWrite], dstAccess := [Access.shaderWrite] },
      { buf := BufferId.copyDispatchArgs,
        srcAccess := [Access.shaderWrite], dstAccess := [Access.shaderWrite] }],
   Cmd.taDispatch c.pingPong
     (if cfg.blurAsInput then ImageId.prevImg else ImageId.taOutput (!c.pingPong))
     { approximateWithDdgi := if cfg.approximateWithDdgi && !s.firstFrame then 1 else 0 },
   Cmd.pipelineBarrier taPostBarriers]

/-- The commands of the feedback tap at the end of an A-Trous iteration
(`vkCmdCopyImage` of the just-written slot into `prev_image`, wrapped in
layout transitions). -/
def feedbackCopy (writeIdx : Nat) : List Cmd :=
  [Cmd.imageBarrier (ImageId.aTrousImg writeIdx),
   Cmd.imageBarrier ImageId.prevImg,
   Cmd.copyImage (ImageId.aTrousImg writeIdx) ImageId.prevImg,
   Cmd.imageBarrier (ImageId.aTrousImg writeIdx),
   Cmd.imageBarrier ImageId.prevImg]

/-- The input image bound at binding 1 of both the copy-tiles and the
A-Trous dispatch of iteration `i`: the temporal-accumulation output at
iteration 0, the previous iteration's A-Trous slot afterwards. -/
def aTrousSrc (c : Common) (readIdx : Nat) (i : Nat) : ImageId :=
  if i = 0 then ImageId.taOutput c.pingPong else ImageId.aTrousImg readIdx

/-- The body of one iteration of the `a_trous_filter` loop, for the
given local `ping_pong` value: compute read/write indices, barrier, the
copy-tiles indirect dispatch, the A-Trous indirect dispatch with
`step_size = 1 << i`, and — after the local parity flip — the optional
feedback copy. -/
def aTrousIterCmds (cfg : Config) (c : Common) (s : RState) (pp : Bool) (i : Nat) : List Cmd :=
  let readIdx : Nat := if pp then 1 else 0
  let writeIdx : Nat := if pp then 0 else 1
  [Cmd.pipelineBarrier [],
   Cmd.copyTilesDispatchIndirect BufferId.copyDispatchArgs
     (aTrousSrc c readIdx i) (ImageId.aTrousImg writeIdx),
   Cmd.aTrousDispatchIndirect BufferId.denoiseDispatchArgs
     (aTrousSrc c readIdx i) (ImageId.aTrousImg writeIdx)
     { radius := cfg.radius,
       stepSize := 2 ^ i,
       approximateWithDdgi := if cfg.approximateWithDdgi && !s.firstFrame then 1 else 0 }]
  ++ (if cfg.feedbackIteration = (i : Int) && cfg.blurAsInput then feedbackCopy writeIdx else [])

/-- The `for (int i = 0; i < filter_iterations; i++)` loop of
`a_trous_filter`, unrolled from the front: returns the local
`ping_pong`, `read_idx`, `write_idx` after `n` iterations together with
all recorded commands.  The initial values mirror the declarations
`ping_pong = false; read_idx = 0; write_idx = 1`. -/
def aTrousLoop (cfg : Config) (c : Common) (s : RState) : Nat → (Bool × Nat × Nat × List Cmd)
  | 0 => (false, 0, 1, [])
  | n + 1 =>
    let acc := aTrousLoop cfg c s n
    let pp := acc.1
    let readIdx : Nat := if pp then 1 else 0
    let writeIdx : Nat := if pp then 0 else 1
    (!pp, readIdx, writeIdx, acc.2.2.2 ++ aTrousIterCmds cfg c s pp n)

/-- `RayTracedReflections::a_trous_filter`: run the iteration loop,
record `m_a_trous.read_idx = write_idx`, and transition the final slot
for reading.  Returns the new read index and the recorded commands. -/
def a_trous_filter (cfg : Config) (c : Common) (s : RState) : Nat × List Cmd :=
  let acc := aTrousLoop cfg c s cfg.filterIterations
  let writeIdx := acc.2.2.1
  (writeIdx, acc.2.2.2 ++ [Cmd.imageBarrier (ImageId.aTrousImg writeIdx)])

/-- `RayTracedReflections::upsample`: transition the full-resolution
image, dispatch the upsample reading A-Trous slot `read_idx`, transition
back. -/
def upsample (readIdx : Nat) : List Cmd :=
  [Cmd.imageBarrier ImageId.upsampleImg,
   Cmd.upsampleDispatch (ImageId.aTrousImg readIdx) ImageId.upsampleImg,
   Cmd.imageBarrier ImageId.upsampleImg]

/-- `RayTracedReflections::render`: clear-on-first-frame, ray trace,
and — when denoising is enabled — reset-args, temporal accumulation, the
A-Trous filter, and the upsample pass when the instance does not run at
full resolution.  Note that `clear_images` runs first, so every later
pass reads the instance state it produced. -/
def render (cfg : Config) (c : Common) (s : RState) : RState × List Cmd :=
  let cleared := clear_images c s
  let s1 := cleared.1
  if cfg.denoise then
    let filtered := a_trous_filter cfg c s1
    ({ s1 with aTrousReadIdx := filtered.1 },
     cleared.2
       ++ ray_trace cfg s1
       ++ reset_args
       ++ temporal_accumulation cfg c s1
       ++ filtered.2
       ++ (if cfg.scale ≠ RayTraceScale.fullRes then upsample filtered.1 else []))
  else
    (s1, cleared.2 ++ ray_trace cfg s1)

/-- The read handles `output_ds` can return, identified by the image
their combined-image-sampler descriptor points at. -/
inductive OutputHandle : Type
  | rayTraceRead : OutputHandle
  | taOutputRead (slot : Bool) : OutputHandle
  | aTrousRead (slot : Nat) : OutputHandle
  | upsampleRead : OutputHandle
deriving DecidableEq, Repr

/-- `RayTracedReflections::output_ds`, evaluated on the state after this
frame's `render`. -/
def output_ds (cfg : Config) (c : Common) (s : RState) : OutputHandle :=
  if cfg.denoise then
    if cfg.currentOutput = OutputType.outputRayTrace then OutputHandle.rayTraceRead
    else if cfg.currentOutput = OutputType.outputTemporalAccumulation then
      OutputHandle.taOutputRead c.pingPong
    else if cfg.currentOutput = OutputType.outputATrous then
      OutputHandle.aTrousRead s.aTrousReadIdx
    else
      if cfg.scale = RayTraceScale.fullRes then OutputHandle.aTrousRead s.aTrousReadIdx
      else OutputHandle.upsampleRead
  else OutputHandle.rayTraceRead

/-- The image a returned output handle reads from. -/
def handleImage : OutputHandle → ImageId
  | OutputHandle.rayTraceRead => ImageId.rayTraceImg
  | OutputHandle.taOutputRead slot => ImageId.taOutput slot
  | OutputHandle.aTrousRead slot => ImageId.aTrousImg slot
  | OutputHandle.upsampleRead => ImageId.upsampleImg

/-- The end-of-frame bookkeeping of the frame loop in
`HybridRendering::update` (`src/main.cpp`): after `submit_and_present`,
increment `num_frames`, drop the global first-frame flag, and flip the
ping-pong parity — exactly once per frame. -/
def frameUpdate (c : Common) : Common :=
  let c1 := { c with numFrames := c.numFrames + 1 }
  let c2 := if c1.firstFrame then { c1 with firstFrame := false } else c1
  { c2 with pingPong := !c2.pingPong }

/-- The images a recorded command writes to. -/
def cmdWrites : Cmd → List ImageId
  | Cmd.clearColor img => [img]
  | Cmd.rayTraceDispatch _ => [ImageId.rayTraceImg]
  | Cmd.taDispatch ws _ _ => [ImageId.taOutput ws, ImageId.taMoments ws]
  | Cmd.copyTilesDispatchIndirect _ _ dst => [dst]
  | Cmd.aTrousDispatchIndirect _ _ dst _ => [dst]
  | Cmd.copyImage _ dst => [dst]
  | Cmd.upsampleDispatch _ dst => [dst]
  | _ => []

/-- All images written by a command list. -/
def writesOf (cmds : List Cmd) : List ImageId :=
  cmds.flatMap cmdWrites

/-- Whether a command is an indirect dispatch (`vkCmdDispatchIndirect`). -/
def isIndirectDispatch : Cmd → Bool
  | Cmd.copyTilesDispatchIndirect _ _ _ => true
  | Cmd.aTrousDispatchIndirect _ _ _ _ => true
  | _ => false

/-- Whether a command is an A-Trous filter indirect dispatch. -/
def isATrousDispatch : Cmd → Bool
  | Cmd.aTrousDispatchIndirect _ _ _ _ => true
  | _ => false

/-- Whether a command is an upsample dispatch. -/
def isUpsampleDispatch : Cmd → Bool
  | Cmd.upsampleDispatch _ _ => true
  | _ => false

/-- The A-Trous filter dispatches of a command list, in recording
order. -/
def aTrousDispatches (cmds : List Cmd) : List Cmd :=
  cmds.filter isATrousDispatch

/-- Image contents: a rational value per integer pixel coordinate. -/
def Img : Type := ℤ × ℤ → ℚ

/-- The contents of every image of the instance. -/
def Store : Type := ImageId → Img

/-- Overwrite one image of the store. -/
def Store.set (st : Store) (img : ImageId) (v : Img) : Store :=
  fun j => if j = img then v else st j

/-- The square-kernel tap offsets of the A-Trous filter: all `(dx, dy)`
with `|dx|, |dy| ≤ radius`. -/
def kernelOffsets (radius : Nat) : List (ℤ × ℤ) :=
  (List.range (2 * radius + 1)).flatMap fun a =>
    (List.range (2 * radius + 1)).map fun b =>
      ((a : ℤ) - (radius : ℤ), (b : ℤ) - (radius : ℤ))

/-- Modelled from the spec: the per-pixel kernel of the A-Trous compute
shader (`shaders/reflections_atrous.comp`, not under `src/`), §4.3 of
the spec: each output pixel is the normalized weighted sum over a square
kernel of the given radius with taps spaced `step_size` texels apart;
the weight of a tap is the product of the color/normal/depth
edge-stopping terms, abstracted here as a weight function `w`
(center pixel, tap pixel). -/
def atrousPixel (w : ℤ × ℤ → ℤ × ℤ → ℚ) (radius stepSize : Nat) (img : Img) (p : ℤ × ℤ) : ℚ :=
  let taps := (kernelOffsets radius).map fun d =>
    (p.1 + (stepSize : ℤ) * d.1, p.2 + (stepSize : ℤ) * d.2)
  ((taps.map fun q => w p q * img q).sum) / ((taps.map fun q => w p q).sum)

/-- Modelled from the spec: the data each shader pass computes, for the
shader binaries that are not under `src/`.  `raySignal` is this frame's
noisy signal (§2 "Signal Producer"), `taColor`/`taMoments` the
temporal blend of history and signal (§4.1), `upsampleF` the bilateral
upsample (§4.4), `needsDenoise` the per-pixel tile classification
(§4.1/4.2: the copy-tiles pass forwards the unfiltered value on
converged tiles, the A-Trous pass filters the rest), and `w` the
edge-stopping tap weight of §4.3. -/
structure Sem : Type where
  raySignal : Img
  taColor : Img → Img → Img
  taMoments : Img → Img → Img
  upsampleF : Img → Img
  needsDenoise : ℤ × ℤ → Bool
  w : ℤ × ℤ → ℤ × ℤ → ℚ

/-- Execute one recorded command on the image store.  Barriers do not
change contents; clears write zero; each dispatch writes the images its
write bindings point at from the images its read bindings point at. -/
def execCmd (sem : Sem) (st : Store) : Cmd → Store
  | Cmd.imageBarrier _ => st
  | Cmd.pipelineBarrier _ => st
  | Cmd.clearColor img => st.set img (fun _ => 0)
  | Cmd.rayTraceDispatch _ => st.set ImageId.rayTraceImg sem.raySignal
  | Cmd.resetArgsDispatch => st
  | Cmd.taDispatch ws histSrc _ =>
    (st.set (ImageId.taOutput ws) (sem.taColor (st histSrc) (st ImageId.rayTraceImg))).set
      (ImageId.taMoments ws)
      (sem.taMoments (st (ImageId.taMoments (!ws))) (st ImageId.rayTraceImg))
  | Cmd.copyTilesDispatchIndirect _ src dst =>
    st.set dst (fun p => if sem.needsDenoise p then st dst p else st src p)
  | Cmd.aTrousDispatchIndirect _ src dst pc =>
    st.set dst (fun p =>
      if sem.needsDenoise p then atrousPixel sem.w pc.radius pc.stepSize (st src) p
      else st dst p)
  | Cmd.copyImage src dst => st.set dst (st src)
  | Cmd.upsampleDispatch src dst => st.set dst (sem.upsampleF (st src))

/-- Execute a recorded command list from left to right. -/
def execTrace (sem : Sem) (cmds : List Cmd) (st : Store) : Store :=
  cmds.foldl (execCmd sem) st

/-- The `(history source, write slot)` layout of the temporal-accumulation
dispatches of a command list. -/
def taDispatchRecords (cmds : List Cmd) : List (Bool × ImageId) :=
  cmds.filterMap fun cmd =>
    match cmd with
    | Cmd.taDispatch ws hist _ => some (ws, hist)
    | _ => none

/-- The `(input image, output image)` pairs of the A-Trous filter
dispatches of a command list, in recording order. -/
def aTrousSrcDst (cmds : List Cmd) : List (ImageId × ImageId) :=
  cmds.filterMap fun cmd =>
    match cmd with
    | Cmd.aTrousDispatchIndirect _ src dst _ => some (src, dst)
    | _ => none

/-- The `step_size` push constants of the A-Trous filter dispatches of a
command list, in recording order. -/
def aTrousStepSizes (cmds : List Cmd) : List Nat :=
  cmds.filterMap fun cmd =>
    match cmd with
    | Cmd.aTrousDispatchIndirect _ _ _ pc => some pc.stepSize
    | _ => none

/-- The `(source, destination)` pairs of the `vkCmdCopyImage` commands
of a command list. -/
def copyImageRecords (cmds : List Cmd) : List (ImageId × ImageId) :=
  cmds.filterMap fun cmd =>
    match cmd with
    | Cmd.copyImage src dst => some (src, dst)
    | _ => none

/-- Whether a command is a `vkCmdClearColorImage`. -/
def isClearColor : Cmd → Bool
  | Cmd.clearColor _ => true
  | _ => false

lemma taDispatchRecords_append (l1 l2 : List Cmd) :
    taDispatchRecords (l1 ++ l2) = taDispatchRecords l1 ++ taDispatchRecords l2 :=
  List.filterMap_append l1 l2 _

lemma aTrousSrcDst_append (l1 l2 : List Cmd) :
    aTrousSrcDst (l1 ++ l2) = aTrousSrcDst l1 ++ aTrousSrcDst l2 :=
  List.filterMap_append l1 l2 _

lemma aTrousStepSizes_append (l1 l2 : List Cmd) :
    aTrousStepSizes (l1 ++ l2) = aTrousStepSizes l1 ++ aTrousStepSizes l2 :=
  List.filterMap_append l1 l2 _

lemma copyImageRecords_append (l1 l2 : List Cmd) :
    copyImageRecords (l1 ++ l2) = copyImageRecords l1 ++ copyImageRecords l2 :=
  List.filterMap_append l1 l2 _

lemma writesOf_append (l1 l2 : List Cmd) :
    writesOf (l1 ++ l2) = writesOf l1 ++ writesOf l2 :=
  List.flatMap_append l1 l2 cmdWrites

lemma aTrousIterCmds_taDispatchRecords (cfg : Config) (c : Common) (s : RState)
    (pp : Bool) (i : Nat) :
    taDispatchRecords (aTrousIterCmds cfg c s pp i) = [] := by
  cases hcond : (decide (cfg.feedbackIteration = (i : Int)) && cfg.blurAsInput) <;>
    simp [aTrousIterCmds, hcond, feedbackCopy, taDispatchRecords]

lemma aTrousIterCmds_srcDst (cfg : Config) (c : Common) (s : RState)
    (pp : Bool) (i : Nat) :
    aTrousSrcDst (aTrousIterCmds cfg c s pp i) =
      [(aTrousSrc c (if pp then 1 else 0) i, ImageId.aTrousImg (if pp then 0 else 1))] := by
  cases hcond : (decide (cfg.feedbackIteration = (i : Int)) && cfg.blurAsInput) <;>
    simp [aTrousIterCmds, hcond, feedbackCopy, aTrousSrcDst]

lemma aTrousIterCmds_stepSizes (cfg : Config) (c : Common) (s : RState)
    (pp : Bool) (i : Nat) :
    aTrousStepSizes (aTrousIterCmds cfg c s pp i) = [2 ^ i] := by
  cases hcond : (decide (cfg.feedbackIteration = (i : Int)) && cfg.blurAsInput) <;>
    simp [aTrousIterCmds, hcond, feedbackCopy, aTrousStepSizes]

lemma aTrousIterCmds_copyImageRecords (cfg : Config) (c : Common) (s : RState)
    (pp : Bool) (i : Nat) :
    copyImageRecords (aTrousIterCmds cfg c s pp i) =
      if decide (cfg.feedbackIteration = (i : Int)) && cfg.blurAsInput then
        [(ImageId.aTrousImg (if pp then 0 else 1), ImageId.prevImg)]
      else [] := by
  cases hcond : (decide (cfg.feedbackIteration = (i : Int)) && cfg.blurAsInput) <;>
    simp [aTrousIterCmds, hcond, feedbackCopy, copyImageRecords]

lemma aTrousIterCmds_no_upsample (cfg : Config) (c : Common) (s : RState)
    (pp : Bool) (i : Nat) :
    (aTrousIterCmds cfg c s pp i).any isUpsampleDispatch = false := by
  cases hcond : (decide (cfg.feedbackIteration = (i : Int)) && cfg.blurAsInput) <;>
    simp [aTrousIterCmds, hcond, feedbackCopy, isUpsampleDispatch]

lemma aTrousIterCmds_no_clear (cfg : Config) (c : Common) (s : RState)
    (pp : Bool) (i : Nat) :
    (aTrousIterCmds cfg c s pp i).any isClearColor = false := by
  cases hcond : (decide (cfg.feedbackIteration = (i : Int)) && cfg.blurAsInput) <;>
    simp [aTrousIterCmds, hcond, feedbackCopy, isClearColor]

lemma aTrousLoop_pp (cfg : Config) (c : Common) (s : RState) :
    ∀ n, (aTrousLoop cfg c s n).1 = decide (n % 2 = 1)
  | 0 => by simp [aTrousLoop]
  | n + 1 => by
    have ih := aTrousLoop_pp cfg c s n
    simp only [aTrousLoop, ih]
    rcases Nat.mod_two_eq_zero_or_one n with h | h <;>
      · have : (n + 1) % 2 = (n % 2 + 1) % 2 := by omega
        simp [h, this]

lemma aTrousLoop_write (cfg : Config) (c : Common) (s : RState) :
    ∀ n, (aTrousLoop cfg c s n).2.2.1 = if n = 0 then 1 else n % 2
  | 0 => by simp [aTrousLoop]
  | n + 1 => by
    simp only [aTrousLoop, aTrousLoop_pp cfg c s n]
    rcases Nat.mod_two_eq_zero_or_one n with h | h <;>
      · have : (n + 1) % 2 = (n % 2 + 1) % 2 := by omega
        simp [h, this]

lemma aTrousLoop_cmds_succ (cfg : Config) (c : Common) (s : RState) (n : Nat) :
    (aTrousLoop cfg c s (n + 1)).2.2.2 =
      (aTrousLoop cfg c s n).2.2.2 ++ aTrousIterCmds cfg c s ((aTrousLoop cfg c s n).1) n := rfl

lemma aTrousLoop_stepSizes (cfg : Config) (c : Common) (s : RState) :
    ∀ n, aTrousStepSizes (aTrousLoop cfg c s n).2.2.2 = (List.range n).map fun i => 2 ^ i
  | 0 => rfl
  | n + 1 => by
    rw [aTrousLoop_cmds_succ, aTrousStepSizes_append, aTrousLoop_stepSizes cfg c s n,
      aTrousIterCmds_stepSizes]
    simp [List.range_succ]

lemma aTrousLoop_taDispatchRecords (cfg : Config) (c : Common) (s : RState) :
    ∀ n, taDispatchRecords (aTrousLoop cfg c s n).2.2.2 = []
  | 0 => rfl
  | n + 1 => by
    rw [aTrousLoop_cmds_succ, taDispatchRecords_append,
      aTrousLoop_taDispatchRecords cfg c s n, aTrousIterCmds_taDispatchRecords]
    rfl

lemma aTrousLoop_no_upsample (cfg : Config) (c : Common) (s : RState) :
    ∀ n, ((aTrousLoop cfg c s n).2.2.2).any isUpsampleDispatch = false
  | 0 => rfl
  | n + 1 => by
    rw [aTrousLoop_cmds_succ, List.any_append, aTrousLoop_no_upsample cfg c s n,
      aTrousIterCmds_no_upsample]
    rfl

lemma aTrousLoop_no_clear (cfg : Config) (c : Common) (s : RState) :
    ∀ n, ((aTrousLoop cfg c s n).2.2.2).any isClearColor = false
  | 0 => rfl
  | n + 1 => by
    rw [aTrousLoop_cmds_succ, List.any_append, aTrousLoop_no_clear cfg c s n,
      aTrousIterCmds_no_clear]
    rfl

lemma render_denoise_trace (cfg : Config) (c : Common) (s : RState) (hd : cfg.denoise = true) :
    (render cfg c s).2 =
      (clear_images c s).2 ++ ray_trace cfg (clear_images c s).1 ++ reset_args
        ++ temporal_accumulation cfg c (clear_images c s).1
        ++ (a_trous_filter cfg c (clear_images c s).1).2
        ++ (if cfg.scale ≠ RayTraceScale.fullRes
              then upsample (a_trous_filter cfg c (clear_images c s).1).1 else []) := by
  simp [render, hd]

lemma render_denoise_state (cfg : Config) (c : Common) (s : RState) (hd : cfg.denoise = true) :
    (render cfg c s).1 =
      { (clear_images c s).1 with
        aTrousReadIdx := (a_trous_filter cfg c (clear_images c s).1).1 } := by
  simp [render, hd]

lemma a_trous_filter_readIdx (cfg : Config) (c : Common) (s : RState) :
    (a_trous_filter cfg c s).1 =
      if cfg.filterIterations = 0 then 1 else cfg.filterIterations % 2 := by
  simp [a_trous_filter, aTrousLoop_write]

lemma clear_images_stepSizes (c : Common) (s : RState) :
    aTrousStepSizes (clear_images c s).2 = [] := by
  cases hf : s.firstFrame <;> simp [clear_images, hf, aTrousStepSizes]

/-- Claim C7: for every frame with denoising enabled, the sequence of
`step_size` push constants handed to the A-Trous filter dispatches is
exactly `2^0, 2^1, …, 2^(filter_iterations-1)`: iteration `i` uses step
size `2^i`. -/
theorem aTrous_stepSize_pow_two (cfg : Config) (c : Common) (s : RState)
    (hd : cfg.denoise = true) :
    aTrousStepSizes (render cfg c s).2 =
      (List.range cfg.filterIterations).map fun i => 2 ^ i := by
  rw [render_denoise_trace cfg c s hd]
  rw [aTrousStepSizes_append, aTrousStepSizes_append, aTrousStepSizes_append,
    aTrousStepSizes_append, aTrousStepSizes_append]
  rw [clear_images_stepSizes]
  have hfilter : aTrousStepSizes (a_trous_filter cfg c (clear_images c s).1).2 =
      (List.range cfg.filterIterations).map fun i => 2 ^ i := by
    rw [a_trous_filter, aTrousStepSizes_append, aTrousLoop_stepSizes]
    simp [aTrousStepSizes]
  rw [hfilter]
  have hups : aTrousStepSizes
      (if cfg.scale ≠ RayTraceScale.fullRes
        then upsample (a_trous_filter cfg c (clear_images c s).1).1 else []) = [] := by
    split <;> simp [upsample, aTrousStepSizes]
  rw [hups]
  simp [ray_trace, reset_args, temporal_accumulation, aTrousStepSizes]

/-- Witness for `aTrous_stepSize_pow_two` at a concrete configuration
with three filter iterations. -/
theorem aTrous_stepSize_pow_two_witness :
    ({ denoise := true, currentOutput := OutputType.outputATrous,
       scale := RayTraceScale.halfRes, sampleGi := false,
       approximateWithDdgi := false, blurAsInput := false,
       filterIterations := 3, feedbackIteration := 1, radius := 1 } : Config).denoise = true
    ∧ aTrousStepSizes
        (render
          { denoise := true, currentOutput := OutputType.outputATrous,
            scale := RayTraceScale.halfRes, sampleGi := false,
            approximateWithDdgi := false, blurAsInput := false,
            filterIterations := 3, feedbackIteration := 1, radius := 1 }
          { pingPong := false, firstFrame := true, numFrames := 0 }
          { firstFrame := true, aTrousReadIdx := 0 }).2 =
        (List.range 3).map fun i => 2 ^ i :=
  ⟨rfl, aTrous_stepSize_pow_two _ _ _ rfl⟩

lemma clear_images_no_upsample (c : Common) (s : RState) :
    ((clear_images c s).2).any isUpsampleDispatch = false := by
  cases hf : s.firstFrame <;> simp [clear_images, hf, isUpsampleDispatch]

/-- Claim C9: an upsample dispatch is recorded during a frame's render
if and only if denoising is enabled and the instance's ray-trace scale
is not full resolution. -/
theorem upsample_dispatch_iff (cfg : Config) (c : Common) (s : RState) :
    ((render cfg c s).2.any isUpsampleDispatch = true) ↔
      (cfg.denoise = true ∧ cfg.scale ≠ RayTraceScale.fullRes) := by
  cases hd : cfg.denoise
  · simp only [render, hd, if_false, Bool.false_eq_true]
    simp only [List.any_append, clear_images_no_upsample]
    simp [ray_trace, isUpsampleDispatch]
  · rw [render_denoise_trace cfg c s hd]
    simp only [List.any_append, clear_images_no_upsample]
    have hfilter : ((a_trous_filter cfg c (clear_images c s).1).2).any isUpsampleDispatch
        = false := by
      rw [a_trous_filter]
      simp [List.any_append, aTrousLoop_no_upsample, isUpsampleDispatch]
    rw [hfilter]
    by_cases hs : cfg.scale = RayTraceScale.fullRes
    · simp [hs, ray_trace, reset_args, temporal_accumulation, isUpsampleDispatch]
    · simp [hs, ray_trace, reset_args, temporal_accumulation, upsample, isUpsampleDispatch]

lemma aTrousLoop_srcDst (cfg : Config) (c : Common) (s : RState) :
    ∀ n, aTrousSrcDst (aTrousLoop cfg c s n).2.2.2 =
      (List.range n).map fun i => (aTrousSrc c (i % 2) i, ImageId.aTrousImg ((i + 1) % 2))
  | 0 => rfl
  | n + 1 => by
    rw [aTrousLoop_cmds_succ, aTrousSrcDst_append, aTrousLoop_srcDst cfg c s n,
      aTrousIterCmds_srcDst, aTrousLoop_pp]
    have h1 : (if decide (n % 2 = 1) then (1 : Nat) else 0) = n % 2 := by
      rcases Nat.mod_two_eq_zero_or_one n with h | h <;> simp [h]
    have h2 : (if decide (n % 2 = 1) then (0 : Nat) else 1) = (n + 1) % 2 := by
      rcases Nat.mod_two_eq_zero_or_one n with h | h <;>
        · have : (n + 1) % 2 = (n % 2 + 1) % 2 := by omega
          simp [h, this]
    rw [h1, h2]
    simp [List.range_succ]

lemma clear_images_srcDst (c : Common) (s : RState) :
    aTrousSrcDst (clear_images c s).2 = [] := by
  cases hf : s.firstFrame <;> simp [clear_images, hf, aTrousSrcDst]

lemma render_aTrousSrcDst (cfg : Config) (c : Common) (s : RState)
    (hd : cfg.denoise = true) :
    aTrousSrcDst (render cfg c s).2 =
      (List.range cfg.filterIterations).map
        fun i => (aTrousSrc c (i % 2) i, ImageId.aTrousImg ((i + 1) % 2)) := by
  rw [render_denoise_trace cfg c s hd]
  rw [aTrousSrcDst_append, aTrousSrcDst_append, aTrousSrcDst_append,
    aTrousSrcDst_append, aTrousSrcDst_append, clear_images_srcDst]
  have hfilter : aTrousSrcDst (a_trous_filter cfg c (clear_images c s).1).2 =
      (List.range cfg.filterIterations).map
        fun i => (aTrousSrc c (i % 2) i, ImageId.aTrousImg ((i + 1) % 2)) := by
    rw [a_trous_filter, aTrousSrcDst_append, aTrousLoop_srcDst]
    simp [aTrousSrcDst]
  rw [hfilter]
  have hups : aTrousSrcDst
      (if cfg.scale ≠ RayTraceScale.fullRes
        then upsample (a_trous_filter cfg c (clear_images c s).1).1 else []) = [] := by
    split <;> simp [upsample, aTrousSrcDst]
  rw [hups]
  simp [ray_trace, reset_args, temporal_accumulation, aTrousSrcDst]

/-- The concrete scenario used by the counterexamples: denoising on,
one filter iteration, no feedback, half-resolution instance, on the
frame after the first. -/
def cfgOneIter : Config :=
  { denoise := true, currentOutput := OutputType.outputATrous,
    scale := RayTraceScale.halfRes, sampleGi := false,
    approximateWithDdgi := false, blurAsInput := false,
    filterIterations := 1, feedbackIteration := -1, radius := 1 }

/-- A steady-state frame: global parity `false`, past the first frame. -/
def commonSteady : Common := { pingPong := false, firstFrame := false, numFrames := 5 }

/-- Instance state past its first frame. -/
def stateSteady : RState := { firstFrame := false, aTrousReadIdx := 0 }

/-- Claim C1 counterexample: with one filter iteration, iteration 0's
A-Trous dispatch reads the temporal-accumulation output image of the
current parity, not A-Trous ping-pong slot `0 % 2` as the claim states
(it does write slot `(0+1) % 2`). -/
theorem aTrous_iter0_reads_ta_counterexample :
    aTrousSrcDst (render cfgOneIter commonSteady stateSteady).2 =
        [(ImageId.taOutput false, ImageId.aTrousImg 1)]
      ∧ ImageId.taOutput false ≠ ImageId.aTrousImg (0 % 2) := by
  constructor
  · rw [render_aTrousSrcDst cfgOneIter commonSteady stateSteady rfl]
    rfl
  · decide

/-- Claim C1 (amended): with denoising on and `filter_iterations ≥ 1`,
iteration 0 reads the temporal-accumulation output (not an A-Trous
slot), every iteration `i ≥ 1` reads A-Trous slot `i % 2`, every
iteration `i` writes slot `(i+1) % 2`; after the loop the recorded read
index equals `filter_iterations % 2`, the slot written by the last
iteration, and both the A-Trous output selection and the upsample pass
read that slot. -/
theorem aTrous_ping_pong_invariant (cfg : Config) (c : Common) (s : RState)
    (hd : cfg.denoise = true) (hn : 1 ≤ cfg.filterIterations) :
    aTrousSrcDst (render cfg c s).2 =
      (List.range cfg.filterIterations).map
        (fun i => (aTrousSrc c (i % 2) i, ImageId.aTrousImg ((i + 1) % 2)))
    ∧ aTrousSrc c 0 0 = ImageId.taOutput c.pingPong
    ∧ (∀ i, 1 ≤ i → aTrousSrc c (i % 2) i = ImageId.aTrousImg (i % 2))
    ∧ (render cfg c s).1.aTrousReadIdx = cfg.filterIterations % 2
    ∧ cfg.filterIterations % 2 = ((cfg.filterIterations - 1) + 1) % 2
    ∧ (cfg.currentOutput = OutputType.outputATrous →
        output_ds cfg c (render cfg c s).1 =
          OutputHandle.aTrousRead (cfg.filterIterations % 2))
    ∧ (cfg.scale ≠ RayTraceScale.fullRes →
        Cmd.upsampleDispatch (ImageId.aTrousImg (cfg.filterIterations % 2))
          ImageId.upsampleImg ∈ (render cfg c s).2) := by
  have hreadIdx : (render cfg c s).1.aTrousReadIdx = cfg.filterIterations % 2 := by
    rw [render_denoise_state cfg c s hd]
    simp only [a_trous_filter_readIdx]
    have : ¬ cfg.filterIterations = 0 := by omega
    simp [this]
  refine ⟨render_aTrousSrcDst cfg c s hd, ?_, ?_, hreadIdx, ?_, ?_, ?_⟩
  · simp [aTrousSrc]
  · intro i hi
    have : ¬ i = 0 := by omega
    simp [aTrousSrc, this]
  · omega
  · intro hout
    rw [output_ds]
    simp [hd, hout, hreadIdx]
  · intro hs
    rw [render_denoise_trace cfg c s hd]
    have hri : (a_trous_filter cfg c (clear_images c s).1).1 = cfg.filterIterations % 2 := by
      rw [a_trous_filter_readIdx]
      have : ¬ cfg.filterIterations = 0 := by omega
      simp [this]
    simp [hs, upsample, hri]

/-- Witness for `aTrous_ping_pong_invariant` at a two-iteration
configuration. -/
theorem aTrous_ping_pong_invariant_witness :
    (({ cfgOneIter with filterIterations := 2 } : Config).denoise = true
      ∧ 1 ≤ ({ cfgOneIter with filterIterations := 2 } : Config).filterIterations)
    ∧ (render { cfgOneIter with filterIterations := 2 } commonSteady stateSteady).1.aTrousReadIdx
        = 2 % 2 := by
  refine ⟨⟨rfl, by decide⟩, ?_⟩
  exact (aTrous_ping_pong_invariant { cfgOneIter with filterIterations := 2 }
    commonSteady stateSteady rfl (by decide)).2.2.2.1

lemma clear_images_taDispatchRecords (c : Common) (s : RState) :
    taDispatchRecords (clear_images c s).2 = [] := by
  cases hf : s.firstFrame <;> simp [clear_images, hf, taDispatchRecords]

/-- Claim C6: with denoising on, exactly one temporal-accumulation
dispatch is recorded per frame; it writes the output and moments images
of slot `ping_pong` and reads history color from the opposite slot
`!ping_pong` — or from the pre-blurred `prev_image` when
`blur_as_input` is enabled; and the frame loop flips the ping-pong
parity exactly once per frame after submission, so the slot written this
frame is the history slot (`!ping_pong`) of the next frame. -/
theorem temporal_accumulation_slots (cfg : Config) (c : Common) (s : RState)
    (hd : cfg.denoise = true) :
    taDispatchRecords (render cfg c s).2 =
      [(c.pingPong,
        if cfg.blurAsInput then ImageId.prevImg else ImageId.taOutput (!c.pingPong))]
    ∧ (∀ hist pc, cmdWrites (Cmd.taDispatch c.pingPong hist pc) =
        [ImageId.taOutput c.pingPong, ImageId.taMoments c.pingPong])
    ∧ (frameUpdate c).pingPong = !c.pingPong
    ∧ (!(frameUpdate c).pingPong) = c.pingPong := by
  refine ⟨?_, fun hist pc => rfl, ?_, ?_⟩
  · rw [render_denoise_trace cfg c s hd]
    rw [taDispatchRecords_append, taDispatchRecords_append, taDispatchRecords_append,
      taDispatchRecords_append, taDispatchRecords_append, clear_images_taDispatchRecords]
    have hfilter : taDispatchRecords (a_trous_filter cfg c (clear_images c s).1).2 = [] := by
      rw [a_trous_filter, taDispatchRecords_append, aTrousLoop_taDispatchRecords]
      rfl
    rw [hfilter]
    have hups : taDispatchRecords
        (if cfg.scale ≠ RayTraceScale.fullRes
          then upsample (a_trous_filter cfg c (clear_images c s).1).1 else []) = [] := by
      split <;> simp [upsample, taDispatchRecords]
    rw [hups]
    simp [ray_trace, reset_args, temporal_accumulation, taDispatchRecords]
  · simp only [frameUpdate]
    split <;> rfl
  · simp only [frameUpdate]
    split <;> simp

/-- Witness for `temporal_accumulation_slots` with `blur_as_input`
enabled: history is read from the pre-blurred `prev_image`. -/
theorem temporal_accumulation_slots_witness :
    ({ cfgOneIter with blurAsInput := true } : Config).denoise = true
    ∧ taDispatchRecords
        (render { cfgOneIter with blurAsInput := true } commonSteady stateSteady).2 =
      [(false, ImageId.prevImg)] := by
  refine ⟨rfl, ?_⟩
  have h := (temporal_accumulation_slots { cfgOneIter with blurAsInput := true }
    commonSteady stateSteady rfl).1
  simpa using h

/-- Claim C4: with denoising on, the frame records the reset-args
dispatch before the temporal-accumulation (reprojection) dispatch, the
barrier `taPostBarriers` — which transitions the two indirect-dispatch
argument buffers from shader-write to indirect-command-read access —
immediately after the reprojection dispatch, and no indirect dispatch
before that barrier; hence every copy-tiles/A-Trous indirect dispatch
of the frame comes after reset-args, reprojection and the barrier. -/
theorem reset_reproject_barrier_indirect_order (cfg : Config) (c : Common) (s : RState)
    (hd : cfg.denoise = true) :
    ∃ l1 l2 pc,
      (render cfg c s).2 =
        l1 ++ (Cmd.taDispatch c.pingPong
                (if cfg.blurAsInput then ImageId.prevImg else ImageId.taOutput (!c.pingPong)) pc
              :: Cmd.pipelineBarrier taPostBarriers :: l2)
      ∧ Cmd.resetArgsDispatch ∈ l1
      ∧ l1.all (fun cmd => !isIndirectDispatch cmd) = true
      ∧ ({ buf := BufferId.denoiseDispatchArgs, srcAccess := [Access.shaderWrite],
           dstAccess := [Access.indirectCommandRead] } : BufBarrier) ∈ taPostBarriers
      ∧ ({ buf := BufferId.copyDispatchArgs, srcAccess := [Access.shaderWrite],
           dstAccess := [Access.indirectCommandRead] } : BufBarrier) ∈ taPostBarriers := by
  refine ⟨(clear_images c s).2 ++ ray_trace cfg (clear_images c s).1 ++ reset_args
      ++ (temporal_accumulation cfg c (clear_images c s).1).take 1,
    (a_trous_filter cfg c (clear_images c s).1).2
      ++ (if cfg.scale ≠ RayTraceScale.fullRes
            then upsample (a_trous_filter cfg c (clear_images c s).1).1 else []),
    { approximateWithDdgi :=
        if cfg.approximateWithDdgi && !(clear_images c s).1.firstFrame then 1 else 0 },
    ?_, ?_, ?_, by decide, by decide⟩
  · rw [render_denoise_trace cfg c s hd]
    simp [temporal_accumulation, List.append_assoc]
  · simp [reset_args]
  · cases hf : s.firstFrame <;>
      simp [clear_images, hf, ray_trace, reset_args, temporal_accumulation, isIndirectDispatch]

/-- Witness for `reset_reproject_barrier_indirect_order` at a concrete
configuration. -/
theorem reset_reproject_barrier_indirect_order_witness :
    (cfgOneIter.denoise = true)
    ∧ (∃ l1 l2 pc,
        (render cfgOneIter commonSteady stateSteady).2 =
          l1 ++ (Cmd.taDispatch commonSteady.pingPong
                  (if cfgOneIter.blurAsInput then ImageId.prevImg
                   else ImageId.taOutput (!commonSteady.pingPong)) pc
                :: Cmd.pipelineBarrier taPostBarriers :: l2)
        ∧ Cmd.resetArgsDispatch ∈ l1
        ∧ l1.all (fun cmd => !isIndirectDispatch cmd) = true
        ∧ ({ buf := BufferId.denoiseDispatchArgs, srcAccess := [Access.shaderWrite],
             dstAccess := [Access.indirectCommandRead] } : BufBarrier) ∈ taPostBarriers
        ∧ ({ buf := BufferId.copyDispatchArgs, srcAccess := [Access.shaderWrite],
             dstAccess := [Access.indirectCommandRead] } : BufBarrier) ∈ taPostBarriers) :=
  ⟨rfl, reset_reproject_barrier_indirect_order cfgOneIter commonSteady stateSteady rfl⟩

/-- A freshly constructed instance and the very first frame of the
application: both first-frame flags set (per §4.5 of the spec the
instance is constructed with `first_frame = true`; the member default
lives in the header `bilateral_blur.h`, which is not under `src/`). -/
def commonFirst : Common := { pingPong := false, firstFrame := true, numFrames := 0 }

/-- Instance state at construction. -/
def stateFirst : RState := { firstFrame := true, aTrousReadIdx := 0 }

lemma clear_images_no_clear_later (c : Common) (s : RState) (hf : s.firstFrame = false) :
    clear_images c s = (s, []) := by
  simp [clear_images, hf]

lemma render_firstFrame_false (cfg : Config) (c : Common) (s : RState) :
    (render cfg c s).1.firstFrame = false := by
  cases hd : cfg.denoise <;> cases hf : s.firstFrame <;>
    simp [render, hd, clear_images, hf]

/-- Claim C5 counterexample: on the very first frame the
`m_first_frame` flag is already false right after the clear step —
i.e. during the first frame's render, before the ray-trace and denoise
passes (which `render` records against the post-clear state) — not
"after the first frame's render completes" as the claim states. -/
theorem first_frame_transition_mid_render_counterexample :
    stateFirst.firstFrame = true
    ∧ (clear_images commonFirst stateFirst).1.firstFrame = false
    ∧ (render cfgOneIter commonFirst stateFirst).2.take 12 =
        (clear_images commonFirst stateFirst).2
          ++ ray_trace cfgOneIter { firstFrame := false, aTrousReadIdx := 0 } := by
  decide

/-- Claim C5 (amended): the history images (`prev_image` and the
`!ping_pong` output and moments slots) are cleared to zero during the
first frame's render after construction and only then; the
`m_first_frame` flag transitions from true to false exactly once,
during the first frame's render at the end of the clear step (before
the remaining passes of that same render), and on every later frame the
clear step records nothing, leaving all images unchanged. -/
theorem first_frame_clear_lifecycle (cfg : Config) (c : Common) (s : RState) :
    (s.firstFrame = true →
      (clear_images c s).1.firstFrame = false
      ∧ writesOf (clear_images c s).2 =
          [ImageId.prevImg, ImageId.taOutput (!c.pingPong), ImageId.taMoments (!c.pingPong)]
      ∧ ((clear_images c s).2).any isClearColor = true)
    ∧ (s.firstFrame = false → clear_images c s = (s, []))
    ∧ (render cfg c s).1.firstFrame = false
    ∧ (s.firstFrame = false → ((render cfg c s).2).any isClearColor = false)
    ∧ (∀ sem st, execTrace sem [] st = st) := by
  refine ⟨?_, clear_images_no_clear_later c s, render_firstFrame_false cfg c s, ?_, fun sem st => rfl⟩
  · intro hf
    refine ⟨by simp [clear_images, hf], ?_, ?_⟩ <;>
      simp [clear_images, hf, writesOf, cmdWrites, isClearColor]
  · intro hf
    cases hd : cfg.denoise
    · simp [render, hd, clear_images, hf, ray_trace, isClearColor]
    · rw [render_denoise_trace cfg c s hd]
      simp only [List.any_append, clear_images_no_clear_later c s hf]
      have hfilter : ((a_trous_filter cfg c s).2).any isClearColor = false := by
        rw [a_trous_filter]
        simp [List.any_append, aTrousLoop_no_clear, isClearColor]
      rw [hfilter]
      have hups : ((if cfg.scale ≠ RayTraceScale.fullRes
          then upsample (a_trous_filter cfg c s).1 else []).any isClearColor) = false := by
        split <;> simp [upsample, isClearColor]
      rw [hups]
      simp [ray_trace, reset_args, temporal_accumulation, isClearColor]

/-- Witness for `first_frame_clear_lifecycle` on the first frame after
construction. -/
theorem first_frame_clear_lifecycle_witness :
    stateFirst.firstFrame = true
    ∧ ((clear_images commonFirst stateFirst).1.firstFrame = false
        ∧ writesOf (clear_images commonFirst stateFirst).2 =
            [ImageId.prevImg, ImageId.taOutput (!commonFirst.pingPong),
             ImageId.taMoments (!commonFirst.pingPong)]
        ∧ ((clear_images commonFirst stateFirst).2).any isClearColor = true) := by
  refine ⟨rfl, ?_⟩
  exact (first_frame_clear_lifecycle cfgOneIter commonFirst stateFirst).1 rfl

/-- Configuration with the GI sampling and DDGI approximation flags
enabled by the user. -/
def cfgGiDdgi : Config :=
  { denoise := true, currentOutput := OutputType.outputATrous,
    scale := RayTraceScale.halfRes, sampleGi := true,
    approximateWithDdgi := true, blurAsInput := false,
    filterIterations := 1, feedbackIteration := -1, radius := 1 }

/-- Claim C8 evaluated at the failing input: on the first frame after
construction, with `sample_gi` and `approximate_with_ddgi` enabled by
the user, the recorded ray-trace, temporal-accumulation and A-Trous
push constants carry the flags as `1`, not `0`: `clear_images` has
already reset `m_first_frame` before those passes read it, so the
`&& !m_first_frame` guards never fire. -/
theorem first_frame_flags_not_forced :
    stateFirst.firstFrame = true
    ∧ Cmd.rayTraceDispatch { sampleGi := 1, approximateWithDdgi := 1 }
        ∈ (render cfgGiDdgi commonFirst stateFirst).2
    ∧ Cmd.taDispatch false (ImageId.taOutput true) { approximateWithDdgi := 1 }
        ∈ (render cfgGiDdgi commonFirst stateFirst).2
    ∧ Cmd.aTrousDispatchIndirect BufferId.denoiseDispatchArgs
        (ImageId.taOutput false) (ImageId.aTrousImg 1)
        { radius := 1, stepSize := 1, approximateWithDdgi := 1 }
        ∈ (render cfgGiDdgi commonFirst stateFirst).2 := by
  decide

lemma aTrousIterCmds_writes_dst (cfg : Config) (c : Common) (s : RState)
    (pp : Bool) (i : Nat) :
    ImageId.aTrousImg (if pp then 0 else 1) ∈ writesOf (aTrousIterCmds cfg c s pp i) := by
  cases hcond : (decide (cfg.feedbackIteration = (i : Int)) && cfg.blurAsInput) <;>
    simp [aTrousIterCmds, hcond, feedbackCopy, writesOf, cmdWrites]

lemma aTrousLoop_writes_last (cfg : Config) (c : Common) (s : RState) (n : Nat)
    (hn : 1 ≤ n) :
    ImageId.aTrousImg (n % 2) ∈ writesOf (aTrousLoop cfg c s n).2.2.2 := by
  obtain ⟨m, rfl⟩ : ∃ m, n = m + 1 := ⟨n - 1, by omega⟩
  rw [aTrousLoop_cmds_succ, writesOf_append]
  have h := aTrousIterCmds_writes_dst cfg c s ((aTrousLoop cfg c s m).1) m
  have h2 : (if (aTrousLoop cfg c s m).1 then (0 : Nat) else 1) = (m + 1) % 2 := by
    rw [aTrousLoop_pp]
    rcases Nat.mod_two_eq_zero_or_one m with hm | hm <;>
      · have : (m + 1) % 2 = (m % 2 + 1) % 2 := by omega
        simp [hm, this]
  rw [h2] at h
  exact List.mem_append_right _ h

lemma mem_writesOf_render_ray (cfg : Config) (c : Common) (s : RState) :
    ImageId.rayTraceImg ∈ writesOf (render cfg c s).2 := by
  cases hd : cfg.denoise
  · cases hf : s.firstFrame <;>
      simp [render, hd, clear_images, hf, ray_trace, writesOf, cmdWrites]
  · rw [render_denoise_trace cfg c s hd]
    simp [writesOf_append, ray_trace, writesOf, cmdWrites]

lemma mem_writesOf_render_ta (cfg : Config) (c : Common) (s : RState)
    (hd : cfg.denoise = true) :
    ImageId.taOutput c.pingPong ∈ writesOf (render cfg c s).2 := by
  rw [render_denoise_trace cfg c s hd]
  simp [writesOf_append, temporal_accumulation, writesOf, cmdWrites]

lemma mem_writesOf_render_atrous (cfg : Config) (c : Common) (s : RState)
    (hd : cfg.denoise = true) (hn : 1 ≤ cfg.filterIterations) :
    ImageId.aTrousImg (cfg.filterIterations % 2) ∈ writesOf (render cfg c s).2 := by
  rw [render_denoise_trace cfg c s hd]
  have h := aTrousLoop_writes_last cfg c (clear_images c s).1 cfg.filterIterations hn
  simp only [writesOf_append, List.mem_append, a_trous_filter]
  exact Or.inl (Or.inr (Or.inl h))

lemma mem_writesOf_render_upsample (cfg : Config) (c : Common) (s : RState)
    (hd : cfg.denoise = true) (hs : cfg.scale ≠ RayTraceScale.fullRes) :
    ImageId.upsampleImg ∈ writesOf (render cfg c s).2 := by
  rw [render_denoise_trace cfg c s hd]
  simp [writesOf_append, hs, upsample, writesOf, cmdWrites]

/-- Full-resolution instance with the filter-iteration count set to
zero. -/
def cfgZeroIter : Config :=
  { denoise := true, currentOutput := OutputType.outputATrous,
    scale := RayTraceScale.fullRes, sampleGi := false,
    approximateWithDdgi := false, blurAsInput := false,
    filterIterations := 0, feedbackIteration := -1, radius := 1 }

/-- Claim C10 counterexample: with denoising on and
`filter_iterations = 0`, the loop of `a_trous_filter` is skipped but
`m_a_trous.read_idx` is still set to the initial `write_idx` of 1, so
the A-Trous output selection returns a handle to A-Trous slot 1 — an
image no command of this frame's render wrote. -/
theorem output_ds_stale_image_counterexample :
    handleImage (output_ds cfgZeroIter commonSteady
        (render cfgZeroIter commonSteady stateSteady).1)
      ∉ writesOf (render cfgZeroIter commonSteady stateSteady).2 := by
  decide

/-- Claim C10 (amended): provided `filter_iterations ≥ 1`, `output_ds`
never returns a handle to a stage image that is not written during the
current frame's render; when denoising is disabled it returns the raw
ray-trace image regardless of the selected output type, and when the
Upsample output is selected while the denoiser runs at full resolution
(so the upsample pass is skipped) it returns the final A-Trous slot
instead of the upsample image.  (With `filter_iterations = 0` the
A-Trous/Upsample selections expose the never-written slot 1.) -/
theorem output_ds_returns_produced_image (cfg : Config) (c : Common) (s : RState)
    (hn : 1 ≤ cfg.filterIterations) :
    handleImage (output_ds cfg c (render cfg c s).1) ∈ writesOf (render cfg c s).2
    ∧ (cfg.denoise = false → output_ds cfg c (render cfg c s).1 = OutputHandle.rayTraceRead)
    ∧ (cfg.denoise = true → cfg.currentOutput = OutputType.outputUpsample →
        cfg.scale = RayTraceScale.fullRes →
        output_ds cfg c (render cfg c s).1 =
          OutputHandle.aTrousRead (cfg.filterIterations % 2)) := by
  have hnz : ¬ cfg.filterIterations = 0 := by omega
  cases hd : cfg.denoise
  · refine ⟨?_, fun _ => ?_, fun h => ?_⟩
    · simp only [output_ds, hd, Bool.false_eq_true, if_false, handleImage]
      exact mem_writesOf_render_ray cfg c s
    · simp [output_ds, hd]
    · exact absurd h (by decide)
  · have hidx : (render cfg c s).1.aTrousReadIdx = cfg.filterIterations % 2 := by
      rw [render_denoise_state cfg c s hd]
      simp [a_trous_filter_readIdx, hnz]
    refine ⟨?_, fun h => ?_, fun _ hco hs => ?_⟩
    · cases hco : cfg.currentOutput
      · simp only [output_ds, hd, hco, if_true, handleImage]
        simpa using mem_writesOf_render_ray cfg c s
      · simp only [output_ds, hd, hco, handleImage]
        simpa using mem_writesOf_render_ta cfg c s hd
      · have hout : output_ds cfg c (render cfg c s).1 =
            OutputHandle.aTrousRead ((render cfg c s).1.aTrousReadIdx) := by
          simp [output_ds, hd, hco]
        rw [hout, hidx]
        exact mem_writesOf_render_atrous cfg c s hd hn
      · by_cases hs : cfg.scale = RayTraceScale.fullRes
        · have hout : output_ds cfg c (render cfg c s).1 =
              OutputHandle.aTrousRead ((render cfg c s).1.aTrousReadIdx) := by
            simp [output_ds, hd, hco, hs]
          rw [hout, hidx]
          exact mem_writesOf_render_atrous cfg c s hd hn
        · have hout : output_ds cfg c (render cfg c s).1 = OutputHandle.upsampleRead := by
            simp [output_ds, hd, hco, hs]
          rw [hout]
          exact mem_writesOf_render_upsample cfg c s hd hs
    · exact absurd h (by decide)
    · simp [output_ds, hd, hco, hs, hidx]

/-- Upsample output selected on a full-resolution instance. -/
def cfgUpsampleFullRes : Config :=
  { denoise := true, currentOutput := OutputType.outputUpsample,
    scale := RayTraceScale.fullRes, sampleGi := false,
    approximateWithDdgi := false, blurAsInput := false,
    filterIterations := 1, feedbackIteration := -1, radius := 1 }

/-- Witness for `output_ds_returns_produced_image`: Upsample selected
on a full-resolution instance with one iteration falls back to the
final A-Trous slot. -/
theorem output_ds_returns_produced_image_witness :
    1 ≤ cfgUpsampleFullRes.filterIterations
    ∧ output_ds cfgUpsampleFullRes commonSteady
        (render cfgUpsampleFullRes commonSteady stateSteady).1 =
      OutputHandle.aTrousRead (1 % 2) := by
  refine ⟨by decide, ?_⟩
  exact (output_ds_returns_produced_image cfgUpsampleFullRes commonSteady stateSteady
    (by decide)).2.2 rfl rfl rfl

lemma Store.set_same (st : Store) (i : ImageId) (v : Img) : (st.set i v) i = v := by
  simp [Store.set]

lemma Store.set_other (st : Store) (i j : ImageId) (v : Img) (h : j ≠ i) :
    (st.set i v) j = st j := by
  simp [Store.set, h]

lemma Store.set_set (st : Store) (i : ImageId) (v w : Img) :
    (st.set i v).set i w = st.set i w := by
  funext j
  by_cases h : j = i <;> simp [Store.set, h]

lemma execTrace_append (sem : Sem) (l1 l2 : List Cmd) (st : Store) :
    execTrace sem (l1 ++ l2) st = execTrace sem l2 (execTrace sem l1 st) :=
  List.foldl_append _ _ _ _

lemma aTrousSrc_ne_dst (c : Common) (pp : Bool) (i : Nat) :
    aTrousSrc c (if pp then 1 else 0) i ≠ ImageId.aTrousImg (if pp then 0 else 1) := by
  cases pp <;> cases i <;> simp [aTrousSrc]

/-- The combined per-pixel effect of the copy-tiles pass followed by the
A-Trous filter pass of one iteration: classified pixels are filtered,
the rest are forwarded unchanged. -/
def iterImg (sem : Sem) (radius : Nat) (i : Nat) (srcImg : Img) : Img :=
  fun p => if sem.needsDenoise p
    then atrousPixel sem.w radius (2 ^ i) srcImg p else srcImg p

lemma exec_aTrousIterKernel (sem : Sem) (cfg : Config) (s : RState)
    (src dst : ImageId) (hne : src ≠ dst) (i : Nat) (st0 : Store) :
    execTrace sem
      [Cmd.pipelineBarrier [],
       Cmd.copyTilesDispatchIndirect BufferId.copyDispatchArgs src dst,
       Cmd.aTrousDispatchIndirect BufferId.denoiseDispatchArgs src dst
         { radius := cfg.radius, stepSize := 2 ^ i,
           approximateWithDdgi :=
             if cfg.approximateWithDdgi && !s.firstFrame then 1 else 0 }] st0 =
    st0.set dst (iterImg sem cfg.radius i (st0 src)) := by
  simp only [execTrace, List.foldl, execCmd]
  rw [Store.set_set]
  refine congrArg (Store.set st0 dst) ?_
  funext p
  rw [Store.set_other st0 dst src _ hne, Store.set_same]
  by_cases hnd : sem.needsDenoise p
  · simp [iterImg, hnd]
  · simp [iterImg, hnd]

lemma exec_feedbackCopy (sem : Sem) (w : Nat) (st2 : Store) :
    execTrace sem (feedbackCopy w) st2 =
      st2.set ImageId.prevImg (st2 (ImageId.aTrousImg w)) := by
  simp only [feedbackCopy, execTrace, List.foldl, execCmd]

lemma exec_aTrousIterCmds_nofb (sem : Sem) (cfg : Config) (c : Common) (s : RState)
    (pp : Bool) (i : Nat) (st : Store)
    (hcond : (decide (cfg.feedbackIteration = (i : Int)) && cfg.blurAsInput) = false) :
    execTrace sem (aTrousIterCmds cfg c s pp i) st =
      st.set (ImageId.aTrousImg (if pp then 0 else 1))
        (iterImg sem cfg.radius i (st (aTrousSrc c (if pp then 1 else 0) i))) := by
  have hlist : aTrousIterCmds cfg c s pp i =
      [Cmd.pipelineBarrier [],
       Cmd.copyTilesDispatchIndirect BufferId.copyDispatchArgs
         (aTrousSrc c (if pp then 1 else 0) i) (ImageId.aTrousImg (if pp then 0 else 1)),
       Cmd.aTrousDispatchIndirect BufferId.denoiseDispatchArgs
         (aTrousSrc c (if pp then 1 else 0) i) (ImageId.aTrousImg (if pp then 0 else 1))
         { radius := cfg.radius, stepSize := 2 ^ i,
           approximateWithDdgi :=
             if cfg.approximateWithDdgi && !s.firstFrame then 1 else 0 }] := by
    simp [aTrousIterCmds, hcond]
  rw [hlist, exec_aTrousIterKernel sem cfg s _ _ (aTrousSrc_ne_dst c pp i) i st]

lemma exec_aTrousIterCmds_fb (sem : Sem) (cfg : Config) (c : Common) (s : RState)
    (pp : Bool) (i : Nat) (st : Store)
    (hcond : (decide (cfg.feedbackIteration = (i : Int)) && cfg.blurAsInput) = true) :
    execTrace sem (aTrousIterCmds cfg c s pp i) st =
      (st.set (ImageId.aTrousImg (if pp then 0 else 1))
          (iterImg sem cfg.radius i (st (aTrousSrc c (if pp then 1 else 0) i)))).set
        ImageId.prevImg
        (iterImg sem cfg.radius i (st (aTrousSrc c (if pp then 1 else 0) i))) := by
  have hlist : aTrousIterCmds cfg c s pp i =
      [Cmd.pipelineBarrier [],
       Cmd.copyTilesDispatchIndirect BufferId.copyDispatchArgs
         (aTrousSrc c (if pp then 1 else 0) i) (ImageId.aTrousImg (if pp then 0 else 1)),
       Cmd.aTrousDispatchIndirect BufferId.denoiseDispatchArgs
         (aTrousSrc c (if pp then 1 else 0) i) (ImageId.aTrousImg (if pp then 0 else 1))
         { radius := cfg.radius, stepSize := 2 ^ i,
           approximateWithDdgi :=
             if cfg.approximateWithDdgi && !s.firstFrame then 1 else 0 }]
      ++ feedbackCopy (if pp then 0 else 1) := by
    simp [aTrousIterCmds, hcond]
  rw [hlist, execTrace_append,
    exec_aTrousIterKernel sem cfg s _ _ (aTrousSrc_ne_dst c pp i) i st,
    exec_feedbackCopy, Store.set_same]

lemma kernelOffsets_zero : kernelOffsets 0 = [((0 : ℤ), (0 : ℤ))] := by
  simp [kernelOffsets, List.range_succ]

lemma atrousPixel_radius_zero (w : ℤ × ℤ → ℤ × ℤ → ℚ) (stepSize : Nat) (img : Img)
    (p : ℤ × ℤ) (hw : w p p ≠ 0) :
    atrousPixel w 0 stepSize img p = img p := by
  simp only [atrousPixel, kernelOffsets_zero, List.map_cons, List.map_nil,
    mul_zero, add_zero, List.sum_cons, List.sum_nil]
  have hp : ((p.1, p.2) : ℤ × ℤ) = p := rfl
  rw [hp]
  exact mul_div_cancel_left₀ (img p) hw

lemma iterImg_radius_zero (sem : Sem) (i : Nat) (srcImg : Img)
    (hw : ∀ p, sem.w p p ≠ 0) (p : ℤ × ℤ) :
    iterImg sem 0 i srcImg p = srcImg p := by
  by_cases hnd : sem.needsDenoise p
  · simp [iterImg, hnd, atrousPixel_radius_zero sem.w (2 ^ i) srcImg p (hw p)]
  · simp [iterImg, hnd]

lemma exec_aTrousIterCmds_preserve (sem : Sem) (cfg : Config) (c : Common) (s : RState)
    (pp : Bool) (i : Nat) (st : Store) (j : ImageId)
    (hdst : j ≠ ImageId.aTrousImg (if pp then 0 else 1)) (hprev : j ≠ ImageId.prevImg) :
    execTrace sem (aTrousIterCmds cfg c s pp i) st j = st j := by
  cases hcond : (decide (cfg.feedbackIteration = (i : Int)) && cfg.blurAsInput)
  · rw [exec_aTrousIterCmds_nofb sem cfg c s pp i st hcond, Store.set_other _ _ _ _ hdst]
  · rw [exec_aTrousIterCmds_fb sem cfg c s pp i st hcond,
      Store.set_other _ _ _ _ hprev, Store.set_other _ _ _ _ hdst]

lemma exec_aTrousIterCmds_dstVal (sem : Sem) (cfg : Config) (c : Common) (s : RState)
    (pp : Bool) (i : Nat) (st : Store) :
    execTrace sem (aTrousIterCmds cfg c s pp i) st (ImageId.aTrousImg (if pp then 0 else 1)) =
      iterImg sem cfg.radius i (st (aTrousSrc c (if pp then 1 else 0) i)) := by
  cases hcond : (decide (cfg.feedbackIteration = (i : Int)) && cfg.blurAsInput)
  · rw [exec_aTrousIterCmds_nofb sem cfg c s pp i st hcond, Store.set_same]
  · rw [exec_aTrousIterCmds_fb sem cfg c s pp i st hcond,
      Store.set_other _ _ _ _ (by simp), Store.set_same]

lemma exec_upsample_preserve (sem : Sem) (r : Nat) (st : Store) (j : ImageId)
    (hj : j ≠ ImageId.upsampleImg) :
    execTrace sem (upsample r) st j = st j := by
  simp only [upsample, execTrace, List.foldl, execCmd]
  exact Store.set_other _ _ _ _ hj

lemma exec_imageBarrier_single (sem : Sem) (x : ImageId) (st : Store) :
    execTrace sem [Cmd.imageBarrier x] st = st := rfl

lemma aTrousLoop_content_radius_zero (sem : Sem) (cfg : Config) (c : Common) (s : RState)
    (hr : cfg.radius = 0) (hw : ∀ p, sem.w p p ≠ 0) (st : Store) :
    ∀ n, 1 ≤ n →
      (∀ p, execTrace sem ((aTrousLoop cfg c s n).2.2.2) st
            (ImageId.aTrousImg (n % 2)) p = st (ImageId.taOutput c.pingPong) p)
      ∧ (∀ p, execTrace sem ((aTrousLoop cfg c s n).2.2.2) st
            (ImageId.taOutput c.pingPong) p = st (ImageId.taOutput c.pingPong) p) := by
  intro n
  induction n with
  | zero => omega
  | succ m ih =>
    intro _
    rw [aTrousLoop_cmds_succ, execTrace_append]
    by_cases hm : 1 ≤ m
    · obtain ⟨ih1, ih2⟩ := ih hm
      have hpp : (aTrousLoop cfg c s m).1 = decide (m % 2 = 1) := aTrousLoop_pp cfg c s m
      have hwrite : (if (aTrousLoop cfg c s m).1 then (0 : Nat) else 1) = (m + 1) % 2 := by
        rw [hpp]
        rcases Nat.mod_two_eq_zero_or_one m with h | h <;>
          · have : (m + 1) % 2 = (m % 2 + 1) % 2 := by omega
            simp [h, this]
      have hread : (if (aTrousLoop cfg c s m).1 then (1 : Nat) else 0) = m % 2 := by
        rw [hpp]
        rcases Nat.mod_two_eq_zero_or_one m with h | h <;> simp [h]
      have hsrc : aTrousSrc c (if (aTrousLoop cfg c s m).1 then 1 else 0) m =
          ImageId.aTrousImg (m % 2) := by
        rw [hread]
        have : ¬ m = 0 := by omega
        simp [aTrousSrc, this]
      constructor
      · intro p
        have hdst := exec_aTrousIterCmds_dstVal sem cfg c s ((aTrousLoop cfg c s m).1) m
          (execTrace sem ((aTrousLoop cfg c s m).2.2.2) st)
        rw [hwrite] at hdst
        rw [hdst, hsrc, hr, iterImg_radius_zero sem m _ hw p, ih1 p]
      · intro p
        rw [exec_aTrousIterCmds_preserve sem cfg c s _ m _ (ImageId.taOutput c.pingPong)
          (by simp) (by simp)]
        exact ih2 p
    · have hm0 : m = 0 := by omega
      subst hm0
      have hloop0 : (aTrousLoop cfg c s 0).2.2.2 = [] := rfl
      have hpp0 : (aTrousLoop cfg c s 0).1 = false := rfl
      rw [hloop0, hpp0]
      have hsrc : aTrousSrc c (if (false : Bool) then 1 else 0) 0 =
          ImageId.taOutput c.pingPong := by
        simp [aTrousSrc]
      constructor
      · intro p
        have hdst := exec_aTrousIterCmds_dstVal sem cfg c s false 0
          (execTrace sem [] st)
        simp only [Bool.false_eq_true, if_false] at hdst hsrc
        show execTrace sem (aTrousIterCmds cfg c s false 0) (execTrace sem [] st)
          (ImageId.aTrousImg (1 % 2)) p = st (ImageId.taOutput c.pingPong) p
        have h12 : (1 : Nat) % 2 = 1 := rfl
        rw [h12, hdst, hsrc, hr, iterImg_radius_zero sem 0 _ hw p]
        rfl
      · intro p
        rw [exec_aTrousIterCmds_preserve sem cfg c s false 0 _ (ImageId.taOutput c.pingPong)
          (by simp) (by simp)]
        rfl

lemma render_exec_after_loop (sem : Sem) (cfg : Config) (c : Common) (s : RState)
    (st : Store) (hd : cfg.denoise = true) (j : ImageId)
    (hj : j ≠ ImageId.upsampleImg) :
    execTrace sem (render cfg c s).2 st j =
      execTrace sem ((aTrousLoop cfg c (clear_images c s).1 cfg.filterIterations).2.2.2)
        (execTrace sem ((clear_images c s).2 ++ ray_trace cfg (clear_images c s).1
          ++ reset_args ++ temporal_accumulation cfg c (clear_images c s).1) st) j := by
  rw [render_denoise_trace cfg c s hd]
  have hfilt : (a_trous_filter cfg c (clear_images c s).1).2 =
      (aTrousLoop cfg c (clear_images c s).1 cfg.filterIterations).2.2.2
        ++ [Cmd.imageBarrier (ImageId.aTrousImg
              ((aTrousLoop cfg c (clear_images c s).1 cfg.filterIterations).2.2.1))] := rfl
  rw [execTrace_append, execTrace_append, execTrace_append, execTrace_append,
    execTrace_append, hfilt, execTrace_append, exec_imageBarrier_single]
  set stLoop := execTrace sem
    ((aTrousLoop cfg c (clear_images c s).1 cfg.filterIterations).2.2.2)
    (execTrace sem (temporal_accumulation cfg c (clear_images c s).1)
      (execTrace sem reset_args
        (execTrace sem (ray_trace cfg (clear_images c s).1)
          (execTrace sem (clear_images c s).2 st)))) with hstLoop
  split
  · exact exec_upsample_preserve sem _ stLoop j hj
  · rfl

/-- Claim C3 (amended, part 1): with denoising on, `radius = 0` and
`filter_iterations ≥ 1`, the A-Trous stage is the identity transform on
its input: every pixel of the final A-Trous slot (the slot
`read_idx` points at, exposed to the output selection and the upsample
pass) equals the corresponding pixel of this frame's
temporal-accumulation output image.  This holds for any tap-weight
function whose center weight never vanishes (per §4.3 the weights are
products of exponentials, hence positive).  With `filter_iterations = 0`
the claim fails: see the counterexample. -/
theorem atrous_radius_zero_identity (cfg : Config) (c : Common) (s : RState)
    (sem : Sem) (st : Store)
    (hd : cfg.denoise = true) (hr : cfg.radius = 0) (hn : 1 ≤ cfg.filterIterations)
    (hw : ∀ p, sem.w p p ≠ 0) :
    (cfg.currentOutput = OutputType.outputATrous →
      handleImage (output_ds cfg c (render cfg c s).1) =
        ImageId.aTrousImg ((render cfg c s).1.aTrousReadIdx))
    ∧ ∀ p, execTrace sem (render cfg c s).2 st
          (ImageId.aTrousImg ((render cfg c s).1.aTrousReadIdx)) p
        = execTrace sem (render cfg c s).2 st (ImageId.taOutput c.pingPong) p := by
  have hidx : (render cfg c s).1.aTrousReadIdx = cfg.filterIterations % 2 := by
    rw [render_denoise_state cfg c s hd]
    simp only [a_trous_filter_readIdx]
    have : ¬ cfg.filterIterations = 0 := by omega
    simp [this]
  constructor
  · intro hout
    simp [output_ds, hd, hout, handleImage]
  · intro p
    rw [hidx]
    rw [render_exec_after_loop sem cfg c s st hd
      (ImageId.aTrousImg (cfg.filterIterations % 2)) (by simp)]
    rw [render_exec_after_loop sem cfg c s st hd (ImageId.taOutput c.pingPong) (by simp)]
    obtain ⟨k1, k2⟩ := aTrousLoop_content_radius_zero sem cfg c (clear_images c s).1 hr hw
      (execTrace sem ((clear_images c s).2 ++ ray_trace cfg (clear_images c s).1
        ++ reset_args ++ temporal_accumulation cfg c (clear_images c s).1) st)
      cfg.filterIterations hn
    rw [k1 p, k2 p]

/-- Modelled from the spec: a concrete shader semantics for witness
evaluation — a constant noisy signal of 5, a temporal blend that takes
the current signal, every pixel classified as needing denoising, and
constant unit tap weights. -/
def semConst : Sem :=
  { raySignal := fun _ => 5,
    taColor := fun _ sig => sig,
    taMoments := fun _ sig => sig,
    upsampleF := fun img => img,
    needsDenoise := fun _ => true,
    w := fun _ _ => 1 }

/-- An initial store holding 99 in every pixel of every image. -/
def storeInit : Store := fun _ => fun _ => 99

/-- Denoising on, radius 0, one filter iteration. -/
def cfgRadiusZero : Config :=
  { denoise := true, currentOutput := OutputType.outputATrous,
    scale := RayTraceScale.fullRes, sampleGi := false,
    approximateWithDdgi := false, blurAsInput := false,
    filterIterations := 1, feedbackIteration := -1, radius := 0 }

/-- Witness for `atrous_radius_zero_identity` at the concrete
semantics: after a frame, pixel (0,0) of the exposed A-Trous slot
equals pixel (0,0) of the temporal-accumulation output. -/
theorem atrous_radius_zero_identity_witness :
    (cfgRadiusZero.denoise = true ∧ cfgRadiusZero.radius = 0
      ∧ 1 ≤ cfgRadiusZero.filterIterations ∧ (∀ p, semConst.w p p ≠ 0))
    ∧ execTrace semConst (render cfgRadiusZero commonSteady stateSteady).2 storeInit
        (ImageId.aTrousImg
          ((render cfgRadiusZero commonSteady stateSteady).1.aTrousReadIdx)) (0, 0)
      = execTrace semConst (render cfgRadiusZero commonSteady stateSteady).2 storeInit
          (ImageId.taOutput commonSteady.pingPong) (0, 0) := by
  refine ⟨⟨rfl, rfl, by decide, fun p => by norm_num [semConst]⟩, ?_⟩
  exact (atrous_radius_zero_identity cfgRadiusZero commonSteady stateSteady semConst
    storeInit rfl rfl (by decide) (fun p => by norm_num [semConst])).2 (0, 0)

/-- Claim C3 counterexample: with denoising on and
`filter_iterations = 0`, the stage is not the identity on its input:
the exposed output handle points at A-Trous slot 1, which still holds
its stale pre-frame content (99), while the temporal-accumulation
output of the frame holds 5. -/
theorem atrous_identity_counterexample :
    execTrace semConst (render cfgZeroIter commonSteady stateSteady).2 storeInit
        (handleImage (output_ds cfgZeroIter commonSteady
          (render cfgZeroIter commonSteady stateSteady).1)) (0, 0) = 99
    ∧ execTrace semConst (render cfgZeroIter commonSteady stateSteady).2 storeInit
        (ImageId.taOutput commonSteady.pingPong) (0, 0) = 5
    ∧ (99 : ℚ) ≠ 5 := by
  refine ⟨by rfl, by rfl, by norm_num⟩

lemma aTrousLoop_write_if (cfg : Config) (c : Common) (s : RState) (n : Nat) :
    (if (aTrousLoop cfg c s n).1 then (0 : Nat) else 1) = (n + 1) % 2 := by
  rw [aTrousLoop_pp]
  rcases Nat.mod_two_eq_zero_or_one n with h | h <;>
    · have : (n + 1) % 2 = (n % 2 + 1) % 2 := by omega
      simp [h, this]

lemma aTrousLoop_copyRecords (cfg : Config) (c : Common) (s : RState) :
    ∀ n, copyImageRecords (aTrousLoop cfg c s n).2.2.2 =
      ((List.range n).filter
        (fun (i : Nat) => decide (cfg.feedbackIteration = (i : Int)) && cfg.blurAsInput)).map
        (fun i => (ImageId.aTrousImg ((i + 1) % 2), ImageId.prevImg))
  | 0 => rfl
  | n + 1 => by
    rw [aTrousLoop_cmds_succ, copyImageRecords_append, aTrousLoop_copyRecords cfg c s n,
      aTrousIterCmds_copyImageRecords, aTrousLoop_write_if, List.range_succ,
      List.filter_append, List.map_append]
    cases hcond : (decide (cfg.feedbackIteration = (n : Int)) && cfg.blurAsInput) <;>
      simp [hcond]

lemma range_filter_eq_single (cfg : Config) (k : Nat) (hb : cfg.blurAsInput = true)
    (hfb : cfg.feedbackIteration = (k : Int)) :
    ∀ n, k < n → (List.range n).filter
        (fun (i : Nat) => decide (cfg.feedbackIteration = (i : Int)) && cfg.blurAsInput) = [k]
  | 0 => by omega
  | n + 1 => by
    intro hk
    rw [List.range_succ, List.filter_append]
    by_cases hkn : k = n
    · subst hkn
      have hnil : (List.range k).filter
          (fun (i : Nat) => decide (cfg.feedbackIteration = (i : Int)) && cfg.blurAsInput) = [] := by
        rw [List.filter_eq_nil_iff]
        intro a ha
        have halt : a < k := List.mem_range.1 ha
        have : ¬ ((k : Int) = (a : Int)) := by
          intro hcast
          omega
        simp [hfb, hb, this]
      rw [hnil]
      simp [hfb, hb]
    · have hkn' : k < n := by omega
      rw [range_filter_eq_single cfg k hb hfb n hkn']
      have hlast : (decide (cfg.feedbackIteration = (n : Int)) && cfg.blurAsInput) = false := by
        have : ¬ ((k : Int) = (n : Int)) := by
          intro hcast
          omega
        simp [hfb, this]
      simp [hlast]

lemma clear_images_copyRecords (c : Common) (s : RState) :
    copyImageRecords (clear_images c s).2 = [] := by
  cases hf : s.firstFrame <;> simp [clear_images, hf, copyImageRecords]

lemma render_copyRecords (cfg : Config) (c : Common) (s : RState)
    (hd : cfg.denoise = true) :
    copyImageRecords (render cfg c s).2 =
      ((List.range cfg.filterIterations).filter
        (fun (i : Nat) => decide (cfg.feedbackIteration = (i : Int)) && cfg.blurAsInput)).map
        (fun i => (ImageId.aTrousImg ((i + 1) % 2), ImageId.prevImg)) := by
  rw [render_denoise_trace cfg c s hd]
  rw [copyImageRecords_append, copyImageRecords_append, copyImageRecords_append,
    copyImageRecords_append, copyImageRecords_append, clear_images_copyRecords]
  have hfilter : copyImageRecords (a_trous_filter cfg c (clear_images c s).1).2 =
      ((List.range cfg.filterIterations).filter
        (fun (i : Nat) => decide (cfg.feedbackIteration = (i : Int)) && cfg.blurAsInput)).map
        (fun i => (ImageId.aTrousImg ((i + 1) % 2), ImageId.prevImg)) := by
    rw [a_trous_filter, copyImageRecords_append, aTrousLoop_copyRecords]
    simp [copyImageRecords]
  rw [hfilter]
  have hups : copyImageRecords
      (if cfg.scale ≠ RayTraceScale.fullRes
        then upsample (a_trous_filter cfg c (clear_images c s).1).1 else []) = [] := by
    split <;> simp [upsample, copyImageRecords]
  rw [hups]
  simp [ray_trace, reset_args, temporal_accumulation, copyImageRecords]

/-- Claim C2: with denoising and `blur_as_input` on and
`feedback_iteration = k` with `0 ≤ k < filter_iterations`, the frame
records exactly one image copy: from A-Trous slot `(k+1) % 2` — the
slot just written by iteration `k` — into the temporal history buffer
`prev_image` (so the history is fed from the partially filtered signal,
not from the temporal-accumulation image); and when
`k = filter_iterations - 1`, after the frame the history buffer's
contents equal the last A-Trous iteration's output slot, for every
shader semantics and initial store. -/
theorem feedback_copies_iteration_output (cfg : Config) (c : Common) (s : RState) (k : Nat)
    (hd : cfg.denoise = true) (hb : cfg.blurAsInput = true)
    (hfb : cfg.feedbackIteration = (k : Int)) (hk : k < cfg.filterIterations) :
    copyImageRecords (render cfg c s).2 =
      [(ImageId.aTrousImg ((k + 1) % 2), ImageId.prevImg)]
    ∧ (k + 1 = cfg.filterIterations → ∀ (sem : Sem) (st : Store),
        execTrace sem (render cfg c s).2 st ImageId.prevImg =
          execTrace sem (render cfg c s).2 st
            (ImageId.aTrousImg ((render cfg c s).1.aTrousReadIdx))) := by
  constructor
  · rw [render_copyRecords cfg c s hd,
      range_filter_eq_single cfg k hb hfb cfg.filterIterations hk]
    rfl
  · intro hlast sem st
    have hidx : (render cfg c s).1.aTrousReadIdx = cfg.filterIterations % 2 := by
      rw [render_denoise_state cfg c s hd]
      simp only [a_trous_filter_readIdx]
      have : ¬ cfg.filterIterations = 0 := by omega
      simp [this]
    rw [hidx]
    rw [render_exec_after_loop sem cfg c s st hd ImageId.prevImg (by simp)]
    rw [render_exec_after_loop sem cfg c s st hd
      (ImageId.aTrousImg (cfg.filterIterations % 2)) (by simp)]
    rw [← hlast]
    rw [aTrousLoop_cmds_succ, execTrace_append]
    have hcond : (decide (cfg.feedbackIteration = (k : Int)) && cfg.blurAsInput) = true := by
      simp [hfb, hb]
    rw [exec_aTrousIterCmds_fb sem cfg c (clear_images c s).1 _ k _ hcond,
      aTrousLoop_write_if]
    rw [Store.set_same]
    rw [Store.set_other _ _ _ _ (by simp), Store.set_same]

/-- Feedback at the single iteration's tap. -/
def cfgFeedback : Config :=
  { denoise := true, currentOutput := OutputType.outputATrous,
    scale := RayTraceScale.fullRes, sampleGi := false,
    approximateWithDdgi := false, blurAsInput := true,
    filterIterations := 1, feedbackIteration := 0, radius := 1 }

/-- Witness for `feedback_copies_iteration_output` with one iteration
and the feedback tap at iteration 0: the single copy goes from A-Trous
slot 1 into the history buffer, and the history equals the final slot
at pixel (0,0) for the concrete semantics. -/
theorem feedback_copies_iteration_output_witness :
    copyImageRecords (render cfgFeedback commonSteady stateSteady).2 =
      [(ImageId.aTrousImg ((0 + 1) % 2), ImageId.prevImg)]
    ∧ execTrace semConst (render cfgFeedback commonSteady stateSteady).2 storeInit
        ImageId.prevImg =
      execTrace semConst (render cfgFeedback commonSteady stateSteady).2 storeInit
        (ImageId.aTrousImg
          ((render cfgFeedback commonSteady stateSteady).1.aTrousReadIdx)) := by
  have h := feedback_copies_iteration_output cfgFeedback commonSteady stateSteady 0
    rfl rfl rfl (by decide)
  exact ⟨h.1, h.2 rfl semConst storeInit⟩
